import Mathlib

/-!
Verification of the p2p-chat core against its specification.

Go strings are modelled as `List Nat` (their UTF-8 bytes) wherever byte-level
operations matter (codec payloads, message bodies, wire data), and as Lean
`String` where only equality and emptiness are inspected (message kinds,
sender names, transport state tags).

External Go standard-library collaborators that are not part of this
repository (compress/gzip, encoding/json) are modelled abstractly by
structures of functions; theorems that depend on them take the library's
documented contract as an explicit hypothesis.  Base64url
(encoding/base64.URLEncoding), whose behaviour is fully specified by
RFC 4648, is implemented concretely.
-/

namespace P2PChat

/-! ## Wire protocol: pkg/protocol/message.go -/

/-- Go struct `Message` with fields Type, From, Text, Timestamp (named
here after their JSON tags `type`, `from`, `text`, `timestamp`, since
`Type` and `from` are reserved words in Lean). `text` is kept as raw
UTF-8 bytes because the wire validator bounds its byte length; `type`
and `from_` are only ever compared for equality. -/
structure Message where
  type : String
  from_ : String
  text : List Nat
  timestamp : Int
  deriving DecidableEq

/-- Constant `TypeChat` from message.go. -/
def TypeChat : String := "chat"

/-- Constant `TypeJoin` from message.go. -/
def TypeJoin : String := "join"

/-- Constant `TypeLeave` from message.go. -/
def TypeLeave : String := "leave"

/-- Constant `MaxTextLength` from message.go. -/
def MaxTextLength : Nat := 1000

/-- Go `NewMessage(msgType, from, text)` stamps `time.Now().UnixMilli()`;
the current time is passed explicitly as `now`. -/
def NewMessage (msgType fromUser : String) (text : List Nat) (now : Int) : Message :=
  { type := msgType, from_ := fromUser, text := text, timestamp := now }

/-- The distinct error values produced by `Unmarshal` / `validateMessage`
(the Go code uses distinct `errors.New` messages). -/
inductive WireError where
  | invalidJSON
  | missingType
  | missingFrom
  | invalidType
  | textTooLong
  | invalidTimestamp
  deriving DecidableEq

/-- Go `validateMessage` from message.go lines 73-99, checks in source order. -/
def validateMessage (msg : Message) : Option WireError :=
  if msg.type = "" then some .missingType
  else if msg.from_ = "" then some .missingFrom
  else if msg.type ≠ TypeChat ∧ msg.type ≠ TypeJoin ∧ msg.type ≠ TypeLeave then
    some .invalidType
  else if MaxTextLength < msg.text.length then some .textTooLong
  else if msg.timestamp < 0 then some .invalidTimestamp
  else none

/-- Abstract model of Go's `encoding/json` restricted to the `Message`
struct: `marshal` is `json.Marshal` (total on this struct), `unmarshal`
is `json.Unmarshal` (`none` models a parse error). -/
structure JsonLib where
  marshal : Message → List Nat
  unmarshal : List Nat → Option Message

/-- Go `Marshal` (message.go lines 39-50): JSON-encode and append a
newline byte.  The Go error branch is unreachable for this struct
(`json.Marshal` of it never fails), matching the total `J.marshal`. -/
def Marshal (J : JsonLib) (msg : Message) : List Nat :=
  J.marshal msg ++ [10]

/-- Go `strings.TrimSuffix(string(data), "\n")`: drop one trailing
newline byte if present. -/
def trimSuffixNL (l : List Nat) : List Nat :=
  if l.getLast? = some 10 then l.dropLast else l

/-- Go `Unmarshal` (message.go lines 53-70): strip one trailing newline,
JSON-parse, then validate. -/
def Unmarshal (J : JsonLib) (data : List Nat) : Except WireError Message :=
  match J.unmarshal (trimSuffixNL data) with
  | none => .error .invalidJSON
  | some msg =>
    match validateMessage msg with
    | some e => .error e
    | none => .ok msg

/-! ## UTF-8 byte sequences

`charBytes`/`strBytes` turn a Lean string into the UTF-8 bytes of the
corresponding Go string; `utf8RuneCount` counts runes the way Go's
`for range` loop does (invalid byte: one replacement rune, width 1),
following the accept ranges of Go's `unicode/utf8.DecodeRuneInString`. -/

/-- UTF-8 encoding of a single code point. -/
def charBytes (n : Nat) : List Nat :=
  if n < 128 then [n]
  else if n < 2048 then [192 + n / 64, 128 + n % 64]
  else if n < 65536 then [224 + n / 4096, 128 + n / 64 % 64, 128 + n % 64]
  else [240 + n / 262144, 128 + n / 4096 % 64, 128 + n / 64 % 64, 128 + n % 64]

/-- UTF-8 bytes of a Lean string, modelling the bytes of a Go string. -/
def strBytes (s : String) : List Nat :=
  s.data.flatMap fun c => charBytes c.toNat

/-- Is a byte a UTF-8 continuation byte (0x80-0xBF)? -/
def isCont (b : Nat) : Bool := 128 ≤ b && b ≤ 191

/-- Accept range of the second byte of a three-byte sequence,
per Go's utf8 tables (E0: A0-BF, ED: 80-9F, otherwise 80-BF). -/
def accept3 (b0 b1 : Nat) : Bool :=
  if b0 = 224 then 160 ≤ b1 && b1 ≤ 191
  else if b0 = 237 then 128 ≤ b1 && b1 ≤ 159
  else isCont b1

/-- Accept range of the second byte of a four-byte sequence,
per Go's utf8 tables (F0: 90-BF, F4: 80-8F, otherwise 80-BF). -/
def accept4 (b0 b1 : Nat) : Bool :=
  if b0 = 240 then 144 ≤ b1 && b1 ≤ 191
  else if b0 = 244 then 128 ≤ b1 && b1 ≤ 143
  else isCont b1

/-- Width in bytes of the first rune of the byte string `b0 :: rest`
under Go's decoding: a valid multi-byte sequence consumes its bytes, an
invalid or truncated sequence consumes one byte (yielding U+FFFD). -/
def utf8Width (b0 : Nat) (rest : List Nat) : Nat :=
  if b0 < 128 then 1
  else if 194 ≤ b0 && b0 ≤ 223 then
    match rest with
    | b1 :: _ => if isCont b1 then 2 else 1
    | [] => 1
  else if 224 ≤ b0 && b0 ≤ 239 then
    match rest with
    | b1 :: b2 :: _ => if accept3 b0 b1 && isCont b2 then 3 else 1
    | _ => 1
  else if 240 ≤ b0 && b0 ≤ 244 then
    match rest with
    | b1 :: b2 :: b3 :: _ => if accept4 b0 b1 && isCont b2 && isCont b3 then 4 else 1
    | _ => 1
  else 1

/-- Fuel-indexed rune counter; the fuel only serves structural
termination and is irrelevant once it dominates the list length. -/
def utf8RuneCountAux : Nat → List Nat → Nat
  | _, [] => 0
  | 0, _ :: _ => 0
  | fuel + 1, b0 :: rest => 1 + utf8RuneCountAux fuel (rest.drop (utf8Width b0 rest - 1))

/-- Number of runes Go's `for range` loop sees in a byte string. -/
def utf8RuneCount (l : List Nat) : Nat :=
  utf8RuneCountAux l.length l

/-! ## Signaling codec: pkg/signaling/codec.go

Base64url (Go `encoding/base64.URLEncoding`) is implemented concretely
on byte lists; gzip (Go `compress/gzip`) is an abstract library. -/

/-- Constant `MaxSDPSize` (4 MiB) from codec.go. -/
def MaxSDPSize : Nat := 4 * 1024 * 1024

/-- Constant `MinEncodedLength` from codec.go. -/
def MinEncodedLength : Nat := 10

/-- The base64url alphabet: index 0-63 to ASCII byte
(A-Z, a-z, 0-9, '-', '_'). -/
def b64Char (n : Nat) : Nat :=
  if n < 26 then 65 + n
  else if n < 52 then 97 + (n - 26)
  else if n < 62 then 48 + (n - 52)
  else if n = 62 then 45
  else 95

/-- Base64url encoding with '=' padding (byte 61), three input bytes per
four output characters, as produced by Go's
`base64.URLEncoding.EncodeToString`. -/
def b64Encode : List Nat → List Nat
  | [] => []
  | [a] => [b64Char (a / 4), b64Char (a % 4 * 16), 61, 61]
  | [a, b] => [b64Char (a / 4), b64Char (a % 4 * 16 + b / 16), b64Char (b % 16 * 4), 61]
  | a :: b :: c :: rest =>
    b64Char (a / 4) :: b64Char (a % 4 * 16 + b / 16) :: b64Char (b % 16 * 4 + c / 64) ::
      b64Char (c % 64) :: b64Encode rest

/-- Index of an ASCII byte in the base64url alphabet. -/
def b64Val (c : Nat) : Option Nat :=
  if 65 ≤ c ∧ c ≤ 90 then some (c - 65)
  else if 97 ≤ c ∧ c ≤ 122 then some (26 + (c - 97))
  else if 48 ≤ c ∧ c ≤ 57 then some (52 + (c - 48))
  else if c = 45 then some 62
  else if c = 95 then some 63
  else none

/-- Base64url decoding of a padded string, as by Go's
`base64.URLEncoding.DecodeString`: groups of four characters, '='
padding allowed only at the end of the final group. -/
def b64Decode : List Nat → Option (List Nat)
  | [] => some []
  | c1 :: c2 :: c3 :: c4 :: rest =>
    match b64Val c1, b64Val c2 with
    | some v1, some v2 =>
      if rest = [] ∧ c3 = 61 ∧ c4 = 61 then
        some [v1 * 4 + v2 / 16]
      else if rest = [] ∧ c4 = 61 then
        match b64Val c3 with
        | some v3 => some [v1 * 4 + v2 / 16, v2 % 16 * 16 + v3 / 4]
        | none => none
      else
        match b64Val c3, b64Val c4, b64Decode rest with
        | some v3, some v4, some bs =>
          some ((v1 * 4 + v2 / 16) :: (v2 % 16 * 16 + v3 / 4) :: (v3 % 4 * 64 + v4) :: bs)
        | _, _, _ => none
    | _, _ => none
  | _ => none

/-- Go `strings.TrimRight(encoded, "=")` in `Encode`: remove all
trailing '=' bytes. -/
def trimEq (l : List Nat) : List Nat :=
  (l.reverse.dropWhile fun c => c == 61).reverse

/-- Go `addBase64Padding` (codec.go lines 155-165): restore '=' padding
by the length-mod-4 rule. -/
def addBase64Padding (l : List Nat) : List Nat :=
  if l.length % 4 = 2 then l ++ [61, 61]
  else if l.length % 4 = 3 then l ++ [61]
  else l

/-- Character test of Go `isValidBase64URL` (codec.go lines 143-148). -/
def b64CharOk (c : Nat) : Bool :=
  (65 ≤ c && c ≤ 90) || (97 ≤ c && c ≤ 122) || (48 ≤ c && c ≤ 57) || c == 45 || c == 95

/-- Go `isValidBase64URL` (codec.go lines 136-152): nonempty and all
characters in the base64url alphabet. -/
def isValidBase64URL (s : List Nat) : Bool :=
  !s.isEmpty && s.all b64CharOk

/-- Rune test of Go `isPrintableText` (codec.go lines 181-185):
printable ASCII, tab/newline/carriage return, or any rune at or above
0x80 (the nested unicode guard admits everything 0x80-0x10FFFF and
0xA0). -/
def printableRune (r : Nat) : Bool :=
  (32 ≤ r && r ≤ 126) || r == 9 || r == 10 || r == 13 ||
    ((128 ≤ r && r ≤ 1114111) || r == 160)

/-- First rune of `b0 :: rest` under Go's `for range` decoding;
invalid or truncated sequences yield U+FFFD (65533). -/
def utf8First (b0 : Nat) (rest : List Nat) : Nat :=
  if b0 < 128 then b0
  else if 194 ≤ b0 && b0 ≤ 223 then
    match rest with
    | b1 :: _ => if isCont b1 then (b0 - 192) * 64 + (b1 - 128) else 65533
    | [] => 65533
  else if 224 ≤ b0 && b0 ≤ 239 then
    match rest with
    | b1 :: b2 :: _ =>
      if accept3 b0 b1 && isCont b2 then (b0 - 224) * 4096 + (b1 - 128) * 64 + (b2 - 128)
      else 65533
    | _ => 65533
  else if 240 ≤ b0 && b0 ≤ 244 then
    match rest with
    | b1 :: b2 :: b3 :: _ =>
      if accept4 b0 b1 && isCont b2 && isCont b3 then
        (b0 - 240) * 262144 + (b1 - 128) * 4096 + (b2 - 128) * 64 + (b3 - 128)
      else 65533
    | _ => 65533
  else 65533

/-- Fuel-indexed body of Go `isPrintableText`: check each rune of the
UTF-8 decoding (invalid bytes decode to U+FFFD exactly as Go's
`for range` does). -/
def isPrintableTextAux : Nat → List Nat → Bool
  | _, [] => true
  | 0, _ :: _ => true
  | fuel + 1, b0 :: rest =>
    printableRune (utf8First b0 rest) &&
      isPrintableTextAux fuel (rest.drop (utf8Width b0 rest - 1))

/-- Go `isPrintableText` (codec.go lines 178-189). -/
def isPrintableText (l : List Nat) : Bool :=
  isPrintableTextAux l.length l

/-- Abstract model of Go's `compress/gzip` as used by `compressString`
and `decompressBytes`: `compress` is gzip at `BestCompression` (total on
in-memory buffers), `decompress` is gzip inflation, `none` modelling a
reader/inflation error. -/
structure GzipLib where
  compress : List Nat → List Nat
  decompress : List Nat → Option (List Nat)

/-- The distinct errors of Encode/Decode in codec.go. -/
inductive CodecError where
  | emptyInput
  | tooLarge
  | tooShort
  | invalidAlphabet
  | badBase64
  | corruptPayload
  | oversizedPayload
  | nonPrintable
  deriving DecidableEq

/-- Go `Encode` (codec.go lines 22-44): reject empty or oversized input,
gzip-compress, base64url-encode, strip '=' padding. -/
def Encode (gz : GzipLib) (sdp : List Nat) : Except CodecError (List Nat) :=
  if sdp = [] then .error .emptyInput
  else if MaxSDPSize < sdp.length then .error .tooLarge
  else .ok (trimEq (b64Encode (gz.compress sdp)))

/-- Go `Decode` (codec.go lines 48-89): validate shape and alphabet,
restore padding, base64url-decode, gzip-decompress, then bound and
printability checks on the result. -/
def Decode (gz : GzipLib) (encoded : List Nat) : Except CodecError (List Nat) :=
  if encoded = [] then .error .emptyInput
  else if encoded.length < MinEncodedLength then .error .tooShort
  else if ¬ isValidBase64URL encoded then .error .invalidAlphabet
  else
    match b64Decode (addBase64Padding encoded) with
    | none => .error .badBase64
    | some compressed =>
      match gz.decompress compressed with
      | none => .error .corruptPayload
      | some sdp =>
        if MaxSDPSize < sdp.length then .error .oversizedPayload
        else if sdp.length > 0 ∧ ¬ isPrintableText sdp then .error .nonPrintable
        else .ok sdp

/-- Unpadded base64url body: the direct form of the trimmed encoder
output (proof helper). -/
def b64Body : List Nat → List Nat
  | [] => []
  | [a] => [b64Char (a / 4), b64Char (a % 4 * 16)]
  | [a, b] => [b64Char (a / 4), b64Char (a % 4 * 16 + b / 16), b64Char (b % 16 * 4)]
  | a :: b :: c :: rest =>
    b64Char (a / 4) :: b64Char (a % 4 * 16 + b / 16) :: b64Char (b % 16 * 4 + c / 64) ::
      b64Char (c % 64) :: b64Body rest

/-- Concrete stand-in for the gzip library used by witnesses: deflation
prepends a 7-byte header, inflation strips it.  It satisfies the
contract hypotheses of `codec_roundtrip` at every input of bytes. -/
def gzStub : GzipLib where
  compress l := List.replicate 7 0 ++ l
  decompress l := if 7 ≤ l.length then some (l.drop 7) else none

/-- Concrete printable codec input for the round-trip witness: CRLF line
endings and a non-ASCII character. -/
def sdpSample : List Nat := strBytes "v=0\r\no=- 4684 2 IN IP4 café\r\n"

/-- Single-byte code of an integer (sign bit interleaved), for the
concrete JSON stand-in. -/
def intCode (t : Int) : Nat :=
  if t < 0 then 2 * (-t).toNat + 1 else 2 * t.toNat

/-- Inverse of `intCode`. -/
def intDecode (n : Nat) : Int :=
  if n % 2 = 1 then -((n / 2 : Nat) : Int) else ((n / 2 : Nat) : Int)

/-- Bytes back to a Lean string (used only on ASCII content in
witnesses). -/
def bytesStr (l : List Nat) : String :=
  ⟨l.map Char.ofNat⟩

/-- Concrete stand-in for the JSON library used by witnesses: a
length-prefixed record encoding.  It satisfies the round-trip contract
assumed of `encoding/json` on every concrete message the witnesses
use. -/
def jsonStub : JsonLib where
  marshal m :=
    (strBytes m.type).length :: (strBytes m.type ++
      (strBytes m.from_).length :: (strBytes m.from_ ++
        m.text.length :: (m.text ++ [intCode m.timestamp])))
  unmarshal data :=
    match data with
    | [] => none
    | n1 :: r =>
      match r.drop n1 with
      | n2 :: r2 =>
        match r2.drop n2 with
        | n3 :: r3 =>
          match r3.drop n3 with
          | [tc] =>
            if (r.take n1).length = n1 ∧ (r2.take n2).length = n2 ∧ (r3.take n3).length = n3 then
              some ⟨bytesStr (r.take n1), bytesStr (r2.take n2), r3.take n3, intDecode tc⟩
            else none
          | _ => none
        | [] => none
      | [] => none

/-- Body of 400 copies of the three-byte rune U+20AC, 1200 bytes but
only 400 characters. -/
def euroBody : List Nat := (List.replicate 400 (charBytes 8364)).flatten

/-! ## Session orchestrator: ChatClient (internal/client/client.go)

The mutable fields of `ChatClient` form `ClientState`; the four
callback slots are tracked only by whether a callback is registered
(their bodies are caller-supplied and external).  Calls made on the
transport peer and invocations of registered callbacks are recorded as
`ClientEvent` lists in program order; the results the external peer
returns to the client (`Send`, `CreateAnswer`, `Close`) enter as
explicit parameters. -/

/-- Mutable session state of `ChatClient`. -/
structure ClientState where
  username : String
  roomCode : List Nat
  isConnected : Bool
  hasOnMessage : Bool
  hasOnConnected : Bool
  hasOnDisconnected : Bool
  hasOnError : Bool
  deriving DecidableEq

/-- Observable interactions of the client with the transport peer and
the registered callbacks. -/
inductive ClientEvent where
  | peerSend (data : List Nat)
  | peerCreateAnswer (offer : List Nat)
  | firedConnected
  | firedDisconnected
  deriving DecidableEq

/-- The distinct errors returned by the ChatClient methods modelled
here. -/
inductive ClientError where
  | alreadyConnected
  | emptyRoomCode
  | invalidRoomCode (e : CodecError)
  | createAnswerFailed (e : String)
  | encodeAnswerFailed (e : CodecError)
  | notConnected
  | emptyText
  | sendFailed (e : String)
  deriving DecidableEq

/-- The state switch of the OnStateChange handler (client.go lines
721-728): "connected" sets the flag, "disconnected"/"failed"/"closed"
clear it, every other state keeps the current value. -/
def updateConnected (state : String) (cur : Bool) : Bool :=
  match state with
  | "connected" => true
  | "disconnected" => false
  | "failed" => false
  | "closed" => false
  | _ => cur

/-- The OnStateChange handler (client.go lines 714-762): update the
connected flag by `updateConnected`; on a false-to-true edge send the
join message (async, result only logged) and fire the connected
callback if registered; on a true-to-false edge fire the disconnected
callback if registered.  `now` is the time stamped into the join
message. -/
def handleStateChange (J : JsonLib) (now : Int) (c : ClientState) (state : String) :
    ClientState × List ClientEvent :=
  let wasConnected := c.isConnected
  let isConn := updateConnected state c.isConnected
  let c' := { c with isConnected := isConn }
  if isConn && !wasConnected then
    (c', ClientEvent.peerSend (Marshal J (NewMessage TypeJoin c.username [] now)) ::
      (if c.hasOnConnected then [ClientEvent.firedConnected] else []))
  else if !isConn && wasConnected then
    (c', if c.hasOnDisconnected then [ClientEvent.firedDisconnected] else [])
  else (c', [])

/-- Deliver a sequence of transport state notifications one at a time
(the orchestrator lock serialises them), collecting emitted events. -/
def runStateChanges (J : JsonLib) (now : Int) : ClientState → List String →
    ClientState × List ClientEvent
  | c, [] => (c, [])
  | c, s :: rest =>
    let r1 := handleStateChange J now c s
    let r2 := runStateChanges J now r1.1 rest
    (r2.1, r1.2 ++ r2.2)

/-- Go `ChatClient.SendMessage` (client.go lines 533-558): not-connected
check, empty-text check, then wrap, marshal and forward to the peer.
`peerSend` is the peer's `Send` (its error return, `none` on
success). -/
def SendMessage (J : JsonLib) (now : Int) (peerSend : List Nat → Option String)
    (c : ClientState) (text : List Nat) : Except ClientError Unit × List ClientEvent :=
  if !c.isConnected then (.error .notConnected, [])
  else if text = [] then (.error .emptyText, [])
  else
    let data := Marshal J (NewMessage TypeChat c.username text now)
    match peerSend data with
    | some e => (.error (.sendFailed e), [ClientEvent.peerSend data])
    | none => (.ok (), [ClientEvent.peerSend data])

/-- Go `ChatClient.Disconnect` (client.go lines 561-595): if connected,
best-effort send the leave message (failure only logged) and clear the
flag; always clear the room code; close the peer and return its result
(`closeRes`); fire the disconnected callback only if the session had
been connected and a callback is registered.  The flag is false
afterwards in both branches, which the single update here reflects. -/
def Disconnect (J : JsonLib) (now : Int) (closeRes : Option String) (c : ClientState) :
    ClientState × Option String × List ClientEvent :=
  let wasConnected := c.isConnected
  let leaveEvents := if c.isConnected then
      [ClientEvent.peerSend (Marshal J (NewMessage TypeLeave c.username [] now))] else []
  let c' := { c with isConnected := false, roomCode := [] }
  let cbEvents := if wasConnected && c.hasOnDisconnected then
      [ClientEvent.firedDisconnected] else []
  (c', closeRes, leaveEvents ++ cbEvents)

/-- Go `ChatClient.IsConnected` (client.go lines 630-634). -/
def IsConnected (c : ClientState) : Bool := c.isConnected

/-- Go `ChatClient.GetRoomCode` (client.go lines 637-641). -/
def GetRoomCode (c : ClientState) : List Nat := c.roomCode

/-- Go `ChatClient.JoinRoom` (client.go lines 473-507): connected and
empty-room-code checks, then codec-decode the room code, ask the peer
for an answer (`peerCreateAnswer`), codec-encode it, store the room
code and return the encoded answer. -/
def JoinRoom (gz : GzipLib) (peerCreateAnswer : List Nat → Except String (List Nat))
    (c : ClientState) (roomCode : List Nat) :
    ClientState × Except ClientError (List Nat) × List ClientEvent :=
  if c.isConnected then (c, .error .alreadyConnected, [])
  else if roomCode = [] then (c, .error .emptyRoomCode, [])
  else
    match Decode gz roomCode with
    | .error e => (c, .error (.invalidRoomCode e), [])
    | .ok offer =>
      match peerCreateAnswer offer with
      | .error e => (c, .error (.createAnswerFailed e), [ClientEvent.peerCreateAnswer offer])
      | .ok answer =>
        match Encode gz answer with
        | .error e => (c, .error (.encodeAnswerFailed e), [ClientEvent.peerCreateAnswer offer])
        | .ok encodedAnswer =>
          ({ c with roomCode := roomCode }, .ok encodedAnswer,
            [ClientEvent.peerCreateAnswer offer])

/-- Go `RealPeer.Close` (pkg/webrtc/peer.go lines 375-390): a data
channel close error is logged and swallowed; the peer connection close
result (`pcErr`, from the external engine) is returned when a
connection exists, otherwise nil. -/
def RealPeerClose (hasDC : Bool) (dcErr : Option String) (hasPC : Bool)
    (pcErr : Option String) : Option String :=
  if hasPC then pcErr else none

/-- Concrete session state for witnesses: fresh, never connected, all
callbacks registered. -/
def cSample : ClientState :=
  { username := "alice", roomCode := [], isConnected := false, hasOnMessage := true,
    hasOnConnected := true, hasOnDisconnected := true, hasOnError := true }

/-- Concrete connected session state for witnesses. -/
def cConn : ClientState :=
  { username := "alice", roomCode := strBytes "room", isConnected := true,
    hasOnMessage := true, hasOnConnected := true, hasOnDisconnected := true,
    hasOnError := true }

/-! ## Theorems -/

theorem trimSuffixNL_concat (l : List Nat) : trimSuffixNL (l ++ [10]) = l := by
  simp [trimSuffixNL]

/-! ### Base64url round-trip lemmas -/

theorem b64Char_ne_61 (n : Nat) : b64Char n ≠ 61 := by
  unfold b64Char
  split_ifs <;> omega

theorem beq_b64Char_61 (n : Nat) : (b64Char n == 61) = false := by
  simp [b64Char_ne_61 n]

theorem b64CharOk_b64Char (n : Nat) : b64CharOk (b64Char n) = true := by
  unfold b64Char b64CharOk
  split_ifs <;> simp <;> omega

theorem b64Val_b64Char : ∀ n, n < 64 → b64Val (b64Char n) = some n := by decide

theorem dropWhile61_eq_self (l : List Nat) (hl : ∀ x ∈ l, x ≠ 61) :
    (l.dropWhile fun c => c == 61) = l := by
  cases l with
  | nil => rfl
  | cons x xs =>
    exact List.dropWhile_cons_of_neg (by simpa using hl x (List.mem_cons_self x xs))

theorem trimEq_append (g t : List Nat) (hg : ∀ x ∈ g, x ≠ 61) :
    trimEq (g ++ t) = g ++ trimEq t := by
  unfold trimEq
  rw [List.reverse_append, List.dropWhile_append]
  by_cases he : (t.reverse.dropWhile fun c => c == 61).isEmpty
  · rw [if_pos he]
    have ht : (t.reverse.dropWhile fun c => c == 61) = [] := by simpa using he
    have h2 : (g.reverse.dropWhile fun c => c == 61) = g.reverse :=
      dropWhile61_eq_self _ (fun x hx => hg x (List.mem_reverse.mp hx))
    rw [ht, h2]
    simp
  · rw [if_neg he, List.reverse_append, List.reverse_reverse]

theorem trim_b64Encode : ∀ l : List Nat, trimEq (b64Encode l) = b64Body l
  | [] => by simp [b64Encode, b64Body, trimEq]
  | [a] => by
    show trimEq [b64Char (a / 4), b64Char (a % 4 * 16), 61, 61] = _
    simp [trimEq, List.dropWhile, beq_b64Char_61, b64Body]
  | [a, b] => by
    show trimEq [b64Char (a / 4), b64Char (a % 4 * 16 + b / 16), b64Char (b % 16 * 4), 61] = _
    simp [trimEq, List.dropWhile, beq_b64Char_61, b64Body]
  | a :: b :: c :: rest => by
    have ih := trim_b64Encode rest
    show trimEq ([b64Char (a / 4), b64Char (a % 4 * 16 + b / 16), b64Char (b % 16 * 4 + c / 64),
      b64Char (c % 64)] ++ b64Encode rest) = _
    rw [trimEq_append _ _ (by
      intro x hx
      simp at hx
      rcases hx with h | h | h | h <;> exact h ▸ b64Char_ne_61 _)]
    rw [ih]
    rfl

theorem b64Body_mem : ∀ l : List Nat, ∀ x ∈ b64Body l, ∃ n, x = b64Char n
  | [], x, hx => by simp [b64Body] at hx
  | [a], x, hx => by
    simp [b64Body] at hx
    rcases hx with h | h <;> exact ⟨_, h⟩
  | [a, b], x, hx => by
    simp [b64Body] at hx
    rcases hx with h | h | h <;> exact ⟨_, h⟩
  | a :: b :: c :: rest, x, hx => by
    simp only [b64Body, List.mem_cons] at hx
    rcases hx with h | h | h | h | h
    · exact ⟨_, h⟩
    · exact ⟨_, h⟩
    · exact ⟨_, h⟩
    · exact ⟨_, h⟩
    · exact b64Body_mem rest x h

theorem b64Body_length : ∀ l : List Nat, (b64Body l).length = (4 * l.length + 2) / 3
  | [] => by simp [b64Body]
  | [a] => by simp [b64Body]
  | [a, b] => by simp [b64Body]
  | a :: b :: c :: rest => by
    have ih := b64Body_length rest
    simp only [b64Body, List.length_cons] at ih ⊢
    omega

theorem pad_b64Body : ∀ l : List Nat, addBase64Padding (b64Body l) = b64Encode l
  | [] => by simp [b64Body, b64Encode, addBase64Padding]
  | [a] => by simp [b64Body, b64Encode, addBase64Padding]
  | [a, b] => by simp [b64Body, b64Encode, addBase64Padding]
  | a :: b :: c :: rest => by
    have ih := pad_b64Body rest
    simp only [b64Body, b64Encode, addBase64Padding, List.length_cons] at ih ⊢
    have hmod : (b64Body rest).length % 4 =
        ((b64Body rest).length + 1 + 1 + 1 + 1) % 4 := by omega
    rw [← hmod]
    split_ifs at ih ⊢ <;> simp_all

theorem b64Decode_b64Encode : ∀ l : List Nat, (∀ x ∈ l, x < 256) →
    b64Decode (b64Encode l) = some l
  | [], _ => rfl
  | [a], h => by
    have ha : a < 256 := h a (by simp)
    show b64Decode [b64Char (a / 4), b64Char (a % 4 * 16), 61, 61] = some [a]
    unfold b64Decode
    rw [b64Val_b64Char _ (by omega), b64Val_b64Char _ (by omega)]
    simp only []
    rw [if_pos (by simp)]
    congr 1
    have : a / 4 * 4 + a % 4 * 16 / 16 = a := by omega
    rw [this]
  | [a, b], h => by
    have ha : a < 256 := h a (by simp)
    have hb : b < 256 := h b (by simp)
    show b64Decode [b64Char (a / 4), b64Char (a % 4 * 16 + b / 16), b64Char (b % 16 * 4), 61] =
      some [a, b]
    unfold b64Decode
    rw [b64Val_b64Char _ (by omega), b64Val_b64Char _ (by omega)]
    simp only []
    rw [if_neg (by simp [b64Char_ne_61]), if_pos (by simp)]
    rw [b64Val_b64Char _ (by omega)]
    simp only []
    congr 1
    have h1 : a / 4 * 4 + (a % 4 * 16 + b / 16) / 16 = a := by omega
    have h2 : (a % 4 * 16 + b / 16) % 16 * 16 + b % 16 * 4 / 4 = b := by omega
    rw [h1, h2]
  | a :: b :: c :: rest, h => by
    have ha : a < 256 := h a (by simp)
    have hb : b < 256 := h b (by simp)
    have hc : c < 256 := h c (by simp)
    have ih := b64Decode_b64Encode rest (fun x hx => h x (by simp [hx]))
    show b64Decode (b64Char (a / 4) :: b64Char (a % 4 * 16 + b / 16) ::
      b64Char (b % 16 * 4 + c / 64) :: b64Char (c % 64) :: b64Encode rest) =
      some (a :: b :: c :: rest)
    unfold b64Decode
    rw [b64Val_b64Char _ (by omega), b64Val_b64Char _ (by omega)]
    simp only []
    rw [if_neg (by simp [b64Char_ne_61]), if_neg (by simp [b64Char_ne_61])]
    rw [b64Val_b64Char _ (by omega), b64Val_b64Char _ (by omega), ih]
    simp only []
    congr 1
    have h1 : a / 4 * 4 + (a % 4 * 16 + b / 16) / 16 = a := by omega
    have h2 : (a % 4 * 16 + b / 16) % 16 * 16 + (b % 16 * 4 + c / 64) / 4 = b := by omega
    have h3 : (b % 16 * 4 + c / 64) % 4 * 64 + c % 64 = c := by omega
    rw [h1, h2, h3]

theorem b64Body_valid (l : List Nat) (hne : l ≠ []) : isValidBase64URL (b64Body l) = true := by
  unfold isValidBase64URL
  rw [Bool.and_eq_true, List.all_eq_true]
  constructor
  · have hl := b64Body_length l
    have hlp : 0 < l.length := List.length_pos.mpr hne
    rcases hb : b64Body l with _ | ⟨y, ys⟩
    · rw [hb] at hl
      simp at hl
      omega
    · simp
  · intro x hx
    obtain ⟨n, rfl⟩ := b64Body_mem l x hx
    exact b64CharOk_b64Char n

/-! ### Codec round-trip -/

/-- C1: Codec round-trip: for every printable text `x` with
`0 < len(x) ≤ 4 MiB`, `Decode(Encode(x))` succeeds and returns exactly
`x` (covering embedded JSON, CRLF line endings, and non-ASCII bytes,
none of which are restricted away by the printability hypothesis).
The gzip library (Go `compress/gzip`, external to this repository) is
abstract; the theorem assumes its contract at `x`: inflation inverts
deflation, the deflated stream is at least 7 bytes (a gzip stream is
always ≥ 18 bytes: 10-byte header plus 8-byte trailer), and its output
consists of bytes. -/
theorem codec_roundtrip (gz : GzipLib) (x : List Nat)
    (hgz : gz.decompress (gz.compress x) = some x)
    (hglen : 7 ≤ (gz.compress x).length)
    (hgbytes : ∀ y ∈ gz.compress x, y < 256)
    (hne : x ≠ []) (hsize : x.length ≤ MaxSDPSize)
    (hprint : isPrintableText x = true) :
    ∃ t, Encode gz x = .ok t ∧ Decode gz t = .ok x := by
  refine ⟨trimEq (b64Encode (gz.compress x)), ?_, ?_⟩
  · unfold Encode
    rw [if_neg hne, if_neg (Nat.not_lt.mpr hsize)]
  · rw [trim_b64Encode]
    have hlen := b64Body_length (gz.compress x)
    have hne2 : b64Body (gz.compress x) ≠ [] := by
      intro h0
      rw [h0] at hlen
      simp at hlen
      omega
    have hcne : gz.compress x ≠ [] := by
      intro h0
      rw [h0] at hglen
      simp at hglen
    unfold Decode
    rw [if_neg hne2]
    rw [if_neg (by rw [hlen]; unfold MinEncodedLength; omega)]
    rw [if_neg (by rw [b64Body_valid _ hcne]; simp)]
    rw [pad_b64Body, b64Decode_b64Encode _ hgbytes]
    simp only []
    rw [hgz]
    simp only []
    rw [if_neg (Nat.not_lt.mpr hsize), if_neg (by simp [hprint])]

theorem codec_roundtrip_witness :
    ∃ t, Encode gzStub sdpSample = .ok t ∧ Decode gzStub t = .ok sdpSample :=
  codec_roundtrip gzStub sdpSample (by decide) (by decide) (by decide) (by decide)
    (by decide) (by decide)

/-! ### Wire protocol properties -/

theorem validateMessage_none (m : Message)
    (hkind : m.type = TypeChat ∨ m.type = TypeJoin ∨ m.type = TypeLeave)
    (hsender : m.from_ ≠ "")
    (hbody : m.text.length ≤ 1000)
    (hts : 0 ≤ m.timestamp) :
    validateMessage m = none := by
  have htne : m.type ≠ "" := by
    rcases hkind with h | h | h <;> rw [h] <;> simp [TypeChat, TypeJoin, TypeLeave]
  unfold validateMessage
  rw [if_neg htne, if_neg hsender, if_neg (by rcases hkind with h | h | h <;> simp [h])]
  rw [if_neg (by unfold MaxTextLength; omega), if_neg (by omega)]

/-- C2: Wire round-trip: for every message with kind in
chat/join/leave, non-empty sender, body of at most 1000 bytes and
non-negative timestamp, `Unmarshal (Marshal m)` returns `m` with no
error.  `encoding/json` (Go standard library, external to this
repository) is abstract; the theorem assumes its round-trip contract at
`m`. -/
theorem wire_roundtrip (J : JsonLib) (m : Message)
    (hjson : J.unmarshal (J.marshal m) = some m)
    (hkind : m.type = TypeChat ∨ m.type = TypeJoin ∨ m.type = TypeLeave)
    (hsender : m.from_ ≠ "")
    (hbody : m.text.length ≤ 1000)
    (hts : 0 ≤ m.timestamp) :
    Unmarshal J (Marshal J m) = .ok m := by
  unfold Unmarshal Marshal
  rw [trimSuffixNL_concat, hjson]
  simp only []
  rw [validateMessage_none m hkind hsender hbody hts]

theorem intDecode_intCode (t : Int) : intDecode (intCode t) = t := by
  unfold intCode intDecode
  split_ifs <;> omega

theorem jsonStub_marshal_getLast (m : Message) :
    (jsonStub.marshal m).getLast? = some (intCode m.timestamp) := by
  show (((strBytes m.type).length :: (strBytes m.type ++
      (strBytes m.from_).length :: (strBytes m.from_ ++
        m.text.length :: (m.text ++ [intCode m.timestamp])))).getLast? = _)
  rw [show ((strBytes m.type).length :: (strBytes m.type ++
      (strBytes m.from_).length :: (strBytes m.from_ ++
        m.text.length :: (m.text ++ [intCode m.timestamp])))) =
      ((strBytes m.type).length :: (strBytes m.type ++
        (strBytes m.from_).length :: (strBytes m.from_ ++ m.text.length :: m.text))) ++
        [intCode m.timestamp] by simp]
  exact List.getLast?_concat _

theorem jsonStub_marshal_trim (m : Message) (h : intCode m.timestamp ≠ 10) :
    trimSuffixNL (jsonStub.marshal m) = jsonStub.marshal m := by
  unfold trimSuffixNL
  rw [jsonStub_marshal_getLast, if_neg (by simpa using h)]

theorem jsonStub_unmarshal_marshal (m : Message)
    (hty : bytesStr (strBytes m.type) = m.type)
    (hfr : bytesStr (strBytes m.from_) = m.from_) :
    jsonStub.unmarshal (jsonStub.marshal m) = some m := by
  simp only [jsonStub, List.drop_left, List.take_left]
  rw [if_pos ⟨trivial, trivial, trivial⟩]
  rw [hty, hfr, intDecode_intCode]

theorem wire_roundtrip_witness :
    Unmarshal jsonStub (Marshal jsonStub ⟨"chat", "alice", strBytes "hi", 0⟩) =
      .ok ⟨"chat", "alice", strBytes "hi", 0⟩ :=
  wire_roundtrip jsonStub ⟨"chat", "alice", strBytes "hi", 0⟩
    (jsonStub_unmarshal_marshal _ (by decide) (by decide))
    (Or.inl (by decide)) (by decide) (by decide) (by decide)

/-- C6: Wire validation: a parseable record missing `kind` fails with
the kind-missing error; missing `sender` fails with the distinct
sender-missing error; `kind="invalid"` fails with the distinct
unknown-kind error; a 1001-byte body fails with the body-too-long
error; timestamp `-1` fails with the timestamp error; timestamp `0`
succeeds.  A record "missing" a field parses to the Go zero value `""`
of that field. -/
theorem wire_validation (J : JsonLib) :
    (∀ data m, J.unmarshal (trimSuffixNL data) = some m → m.type = "" →
      Unmarshal J data = .error .missingType)
  ∧ (∀ data m, J.unmarshal (trimSuffixNL data) = some m → m.type ≠ "" → m.from_ = "" →
      Unmarshal J data = .error .missingFrom)
  ∧ (∀ data m, J.unmarshal (trimSuffixNL data) = some m → m.type = "invalid" → m.from_ ≠ "" →
      Unmarshal J data = .error .invalidType)
  ∧ (∀ data m, J.unmarshal (trimSuffixNL data) = some m →
      (m.type = TypeChat ∨ m.type = TypeJoin ∨ m.type = TypeLeave) → m.from_ ≠ "" →
      m.text.length = 1001 → Unmarshal J data = .error .textTooLong)
  ∧ (∀ data m, J.unmarshal (trimSuffixNL data) = some m →
      (m.type = TypeChat ∨ m.type = TypeJoin ∨ m.type = TypeLeave) → m.from_ ≠ "" →
      m.text.length ≤ 1000 → m.timestamp = -1 → Unmarshal J data = .error .invalidTimestamp)
  ∧ (∀ data m, J.unmarshal (trimSuffixNL data) = some m →
      (m.type = TypeChat ∨ m.type = TypeJoin ∨ m.type = TypeLeave) → m.from_ ≠ "" →
      m.text.length ≤ 1000 → m.timestamp = 0 → Unmarshal J data = .ok m) := by
  refine ⟨?_, ?_, ?_, ?_, ?_, ?_⟩
  · intro data m hj ht
    unfold Unmarshal
    rw [hj]
    simp only []
    rw [show validateMessage m = some .missingType by unfold validateMessage; rw [if_pos ht]]
  · intro data m hj ht hf
    unfold Unmarshal
    rw [hj]
    simp only []
    rw [show validateMessage m = some .missingFrom by
      unfold validateMessage; rw [if_neg ht, if_pos hf]]
  · intro data m hj ht hf
    unfold Unmarshal
    rw [hj]
    simp only []
    rw [show validateMessage m = some .invalidType by
      unfold validateMessage
      rw [if_neg (by rw [ht]; simp), if_neg hf,
        if_pos (by rw [ht]; refine ⟨by simp [TypeChat], by simp [TypeJoin], by simp [TypeLeave]⟩)]]
  · intro data m hj hk hf hlen
    have htne : m.type ≠ "" := by
      rcases hk with h | h | h <;> rw [h] <;> simp [TypeChat, TypeJoin, TypeLeave]
    unfold Unmarshal
    rw [hj]
    simp only []
    rw [show validateMessage m = some .textTooLong by
      unfold validateMessage
      rw [if_neg htne, if_neg hf, if_neg (by rcases hk with h | h | h <;> simp [h]),
        if_pos (by unfold MaxTextLength; omega)]]
  · intro data m hj hk hf hlen hts
    have htne : m.type ≠ "" := by
      rcases hk with h | h | h <;> rw [h] <;> simp [TypeChat, TypeJoin, TypeLeave]
    unfold Unmarshal
    rw [hj]
    simp only []
    rw [show validateMessage m = some .invalidTimestamp by
      unfold validateMessage
      rw [if_neg htne, if_neg hf, if_neg (by rcases hk with h | h | h <;> simp [h]),
        if_neg (by unfold MaxTextLength; omega), if_pos (by omega)]]
  · intro data m hj hk hf hlen hts
    unfold Unmarshal
    rw [hj]
    simp only []
    rw [validateMessage_none m hk hf hlen (by omega)]

theorem wire_validation_witness :
    Unmarshal jsonStub (jsonStub.marshal ⟨"", "a", [], 0⟩) = .error .missingType
  ∧ Unmarshal jsonStub (jsonStub.marshal ⟨"chat", "", [], 0⟩) = .error .missingFrom
  ∧ Unmarshal jsonStub (jsonStub.marshal ⟨"invalid", "a", [], 0⟩) = .error .invalidType
  ∧ Unmarshal jsonStub (jsonStub.marshal ⟨"chat", "a", List.replicate 1001 65, 0⟩) =
      .error .textTooLong
  ∧ Unmarshal jsonStub (jsonStub.marshal ⟨"chat", "a", [], -1⟩) = .error .invalidTimestamp
  ∧ Unmarshal jsonStub (jsonStub.marshal ⟨"chat", "a", [], 0⟩) = .ok ⟨"chat", "a", [], 0⟩ :=
  ⟨(wire_validation jsonStub).1 _ ⟨"", "a", [], 0⟩
     (by rw [jsonStub_marshal_trim _ (by decide)]
         exact jsonStub_unmarshal_marshal _ (by decide) (by decide)) (by decide),
   (wire_validation jsonStub).2.1 _ ⟨"chat", "", [], 0⟩
     (by rw [jsonStub_marshal_trim _ (by decide)]
         exact jsonStub_unmarshal_marshal _ (by decide) (by decide)) (by decide) (by decide),
   (wire_validation jsonStub).2.2.1 _ ⟨"invalid", "a", [], 0⟩
     (by rw [jsonStub_marshal_trim _ (by decide)]
         exact jsonStub_unmarshal_marshal _ (by decide) (by decide)) (by decide) (by decide),
   (wire_validation jsonStub).2.2.2.1 _ ⟨"chat", "a", List.replicate 1001 65, 0⟩
     (by rw [jsonStub_marshal_trim _ (by decide)]
         exact jsonStub_unmarshal_marshal _ (by decide) (by decide))
     (Or.inl (by decide)) (by decide) (by rw [List.length_replicate]),
   (wire_validation jsonStub).2.2.2.2.1 _ ⟨"chat", "a", [], -1⟩
     (by rw [jsonStub_marshal_trim _ (by decide)]
         exact jsonStub_unmarshal_marshal _ (by decide) (by decide))
     (Or.inl (by decide)) (by decide) (by decide) (by decide),
   (wire_validation jsonStub).2.2.2.2.2 _ ⟨"chat", "a", [], 0⟩
     (by rw [jsonStub_marshal_trim _ (by decide)]
         exact jsonStub_unmarshal_marshal _ (by decide) (by decide))
     (Or.inl (by decide)) (by decide) (by decide) (by decide)⟩

theorem flatten_replicate_length (n : Nat) (l : List Nat) :
    ((List.replicate n l).flatten).length = n * l.length := by
  induction n with
  | zero => simp
  | succ k ih => simp [List.replicate_succ, ih, Nat.succ_mul, Nat.add_comm]

theorem euroBody_length : euroBody.length = 1200 := by
  have h : charBytes 8364 = [226, 130, 172] := by decide
  rw [euroBody, h, flatten_replicate_length]
  rfl

set_option maxRecDepth 100000 in
/-- C9: The 1000 limit on the body is enforced on UTF-8 byte length,
not rune count: any parseable record whose body exceeds 1000 bytes is
rejected with the body-too-long error even when its rune count is at
most 1000 (the 400-rune, 1200-byte `euroBody` exhibits this), and any
body of at most 1000 bytes is accepted when the remaining fields are
valid. -/
theorem body_limit_bytes (J : JsonLib) :
    (∀ data m, J.unmarshal (trimSuffixNL data) = some m →
      (m.type = TypeChat ∨ m.type = TypeJoin ∨ m.type = TypeLeave) → m.from_ ≠ "" →
      0 ≤ m.timestamp → 1000 < m.text.length → Unmarshal J data = .error .textTooLong)
  ∧ (∀ data m, J.unmarshal (trimSuffixNL data) = some m →
      (m.type = TypeChat ∨ m.type = TypeJoin ∨ m.type = TypeLeave) → m.from_ ≠ "" →
      0 ≤ m.timestamp → m.text.length ≤ 1000 → Unmarshal J data = .ok m)
  ∧ (utf8RuneCount euroBody = 400 ∧ utf8RuneCount euroBody ≤ 1000 ∧ 1000 < euroBody.length ∧
      validateMessage ⟨TypeChat, "a", euroBody, 0⟩ = some .textTooLong) := by
  refine ⟨?_, ?_, by decide, by decide, by rw [euroBody_length]; omega, by
    unfold validateMessage
    rw [if_neg (by simp [TypeChat]), if_neg (by simp),
      if_neg (by simp [TypeChat]), if_pos (by rw [euroBody_length]; simp [MaxTextLength])]⟩
  · intro data m hj hk hf hts hlen
    have htne : m.type ≠ "" := by
      rcases hk with h | h | h <;> rw [h] <;> simp [TypeChat, TypeJoin, TypeLeave]
    unfold Unmarshal
    rw [hj]
    simp only []
    rw [show validateMessage m = some .textTooLong by
      unfold validateMessage
      rw [if_neg htne, if_neg hf, if_neg (by rcases hk with h | h | h <;> simp [h]),
        if_pos (by unfold MaxTextLength; omega)]]
  · intro data m hj hk hf hts hlen
    unfold Unmarshal
    rw [hj]
    simp only []
    rw [validateMessage_none m hk hf hlen hts]

theorem body_limit_bytes_witness :
    Unmarshal jsonStub (jsonStub.marshal ⟨"chat", "b", euroBody, 0⟩) = .error .textTooLong
  ∧ Unmarshal jsonStub (jsonStub.marshal ⟨"chat", "b", strBytes "ok", 0⟩) =
      .ok ⟨"chat", "b", strBytes "ok", 0⟩ :=
  ⟨(body_limit_bytes jsonStub).1 _ ⟨"chat", "b", euroBody, 0⟩
     (by rw [jsonStub_marshal_trim _ (by decide)]
         exact jsonStub_unmarshal_marshal _ (by decide) (by decide))
     (Or.inl (by decide)) (by decide) (by decide) (by rw [euroBody_length]; omega),
   (body_limit_bytes jsonStub).2.1 _ ⟨"chat", "b", strBytes "ok", 0⟩
     (by rw [jsonStub_marshal_trim _ (by decide)]
         exact jsonStub_unmarshal_marshal _ (by decide) (by decide))
     (Or.inl (by decide)) (by decide) (by decide) (by decide)⟩

/-! ### Session orchestrator properties -/

theorem handleStateChange_fst (J : JsonLib) (now : Int) (c : ClientState) (s : String) :
    (handleStateChange J now c s).1 = { c with isConnected := updateConnected s c.isConnected } := by
  unfold handleStateChange
  dsimp only
  split_ifs <;> rfl

/-- C4: Transport state mapping: a single notification updates the
connected flag three ways: "connected" sets it true; each of
"disconnected", "failed" and "closed" sets it false; every other state
string leaves it unchanged. -/
theorem transport_state_mapping (J : JsonLib) (now : Int) (c : ClientState) :
    ((handleStateChange J now c "connected").1.isConnected = true)
  ∧ (∀ s, s = "disconnected" ∨ s = "failed" ∨ s = "closed" →
      (handleStateChange J now c s).1.isConnected = false)
  ∧ (∀ s, s ≠ "connected" → s ≠ "disconnected" → s ≠ "failed" → s ≠ "closed" →
      (handleStateChange J now c s).1.isConnected = c.isConnected) := by
  refine ⟨?_, ?_, ?_⟩
  · rw [handleStateChange_fst]
    rfl
  · intro s h
    rw [handleStateChange_fst]
    rcases h with h | h | h <;> subst h <;> rfl
  · intro s h1 h2 h3 h4
    rw [handleStateChange_fst]
    show updateConnected s c.isConnected = c.isConnected
    unfold updateConnected
    split <;> simp_all

theorem transport_state_mapping_witness :
    ((handleStateChange jsonStub 0 cSample "connected").1.isConnected = true)
  ∧ ((handleStateChange jsonStub 0 cSample "failed").1.isConnected = false)
  ∧ ((handleStateChange jsonStub 0 cSample "new").1.isConnected = cSample.isConnected) :=
  ⟨(transport_state_mapping jsonStub 0 cSample).1,
   (transport_state_mapping jsonStub 0 cSample).2.1 "failed" (Or.inr (Or.inl rfl)),
   (transport_state_mapping jsonStub 0 cSample).2.2 "new" (by decide) (by decide) (by decide)
     (by decide)⟩

/-- C3: Edge-triggered connect/disconnect: from a not-connected session
with callbacks registered, the notification sequence
[connecting, connected, connected, connected, disconnected] emits
exactly one join broadcast, then one connected-callback firing, then
one disconnected-callback firing — the repeated "connected"
notifications emit nothing. -/
theorem edge_triggered_connect (J : JsonLib) (now : Int) (c : ClientState)
    (hc : c.isConnected = false) (hone : c.hasOnConnected = true)
    (hond : c.hasOnDisconnected = true) :
    (runStateChanges J now c
      ["connecting", "connected", "connected", "connected", "disconnected"]).2 =
      [ClientEvent.peerSend (Marshal J (NewMessage TypeJoin c.username [] now)),
        ClientEvent.firedConnected, ClientEvent.firedDisconnected] := by
  simp [runStateChanges, handleStateChange, updateConnected, hc, hone, hond]

theorem edge_triggered_connect_witness :
    (runStateChanges jsonStub 0 cSample
      ["connecting", "connected", "connected", "connected", "disconnected"]).2 =
      [ClientEvent.peerSend (Marshal jsonStub (NewMessage TypeJoin "alice" [] 0)),
        ClientEvent.firedConnected, ClientEvent.firedDisconnected] :=
  edge_triggered_connect jsonStub 0 cSample rfl rfl rfl

/-- C5: SendMessage gating: with the connected flag false every text
(including "hi") is rejected with the not-connected error and nothing
reaches the peer; with the flag true empty text is rejected with the
empty-text error; with the flag true and non-empty text, exactly the
serialization of the chat-kind message with sender equal to the session
username is forwarded to the peer's Send (and the call succeeds when
Send does). -/
theorem send_message_gating (J : JsonLib) (now : Int) (peerSend : List Nat → Option String)
    (c : ClientState) :
    (∀ text, c.isConnected = false →
      SendMessage J now peerSend c text = (.error .notConnected, []))
  ∧ (c.isConnected = true → SendMessage J now peerSend c [] = (.error .emptyText, []))
  ∧ (∀ text, c.isConnected = true → text ≠ [] →
      (SendMessage J now peerSend c text).2 =
        [ClientEvent.peerSend (Marshal J (NewMessage TypeChat c.username text now))]
      ∧ (peerSend (Marshal J (NewMessage TypeChat c.username text now)) = none →
          (SendMessage J now peerSend c text).1 = .ok ())) := by
  refine ⟨?_, ?_, ?_⟩
  · intro text hc
    simp [SendMessage, hc]
  · intro hc
    simp [SendMessage, hc]
  · intro text hc hne
    constructor
    · rcases hps : peerSend (Marshal J (NewMessage TypeChat c.username text now)) with _ | e <;>
        simp [SendMessage, hc, hne, hps]
    · intro hps
      simp [SendMessage, hc, hne, hps]

theorem send_message_gating_witness :
    SendMessage jsonStub 0 (fun _ => none) cSample (strBytes "hi") = (.error .notConnected, [])
  ∧ SendMessage jsonStub 0 (fun _ => none) cConn [] = (.error .emptyText, [])
  ∧ ((SendMessage jsonStub 0 (fun _ => none) cConn (strBytes "hi")).2 =
      [ClientEvent.peerSend (Marshal jsonStub (NewMessage TypeChat "alice" (strBytes "hi") 0))]
    ∧ (SendMessage jsonStub 0 (fun _ => none) cConn (strBytes "hi")).1 = .ok ()) :=
  ⟨(send_message_gating jsonStub 0 (fun _ => none) cSample).1 (strBytes "hi") rfl,
   (send_message_gating jsonStub 0 (fun _ => none) cConn).2.1 rfl,
   ((send_message_gating jsonStub 0 (fun _ => none) cConn).2.2 (strBytes "hi") rfl (by decide)).1,
   ((send_message_gating jsonStub 0 (fun _ => none) cConn).2.2 (strBytes "hi") rfl (by decide)).2
     rfl⟩

/-- C7: Idempotent close: after a first Disconnect, a second Disconnect
returns no error (given that the peer's Close reports no error on the
repeated call, which `RealPeerClose` guarantees whenever the engine's
connection close does — a data-channel close error is swallowed) and
emits nothing at all, so the disconnected callback is invoked at most
once across both calls and never by the second. -/
theorem disconnect_idempotent (J : JsonLib) (now1 now2 : Int) (e1 e2 : Option String)
    (c : ClientState) (h2 : e2 = none) :
    ((Disconnect J now2 e2 (Disconnect J now1 e1 c).1).2.1 = none)
  ∧ ((Disconnect J now2 e2 (Disconnect J now1 e1 c).1).2.2 = [])
  ∧ (((Disconnect J now1 e1 c).2.2 ++
      (Disconnect J now2 e2 (Disconnect J now1 e1 c).1).2.2).count
        ClientEvent.firedDisconnected ≤ 1)
  ∧ (∀ hasDC dcErr hasPC, RealPeerClose hasDC dcErr hasPC none = none) := by
  refine ⟨by simp [Disconnect, h2], ?_, ?_, ?_⟩
  · simp [Disconnect]
  · have hsnd : (Disconnect J now2 e2 (Disconnect J now1 e1 c).1).2.2 = [] := by
      simp [Disconnect]
    rw [hsnd, List.append_nil]
    unfold Disconnect
    dsimp only
    split_ifs <;> simp [List.count_cons, List.count_nil]
  · intro hasDC dcErr hasPC
    unfold RealPeerClose
    split_ifs <;> rfl

theorem disconnect_idempotent_witness :
    ((Disconnect jsonStub 0 none (Disconnect jsonStub 0 none cConn).1).2.1 = none)
  ∧ ((Disconnect jsonStub 0 none (Disconnect jsonStub 0 none cConn).1).2.2 = [])
  ∧ (((Disconnect jsonStub 0 none cConn).2.2 ++
      (Disconnect jsonStub 0 none (Disconnect jsonStub 0 none cConn).1).2.2).count
        ClientEvent.firedDisconnected ≤ 1)
  ∧ RealPeerClose true (some "dc close failure") true none = none :=
  ⟨(disconnect_idempotent jsonStub 0 0 none none cConn rfl).1,
   (disconnect_idempotent jsonStub 0 0 none none cConn rfl).2.1,
   (disconnect_idempotent jsonStub 0 0 none none cConn rfl).2.2.1,
   (disconnect_idempotent jsonStub 0 0 none none cConn rfl).2.2.2 true (some "dc close failure")
     true⟩

/-- C10: Disconnect clears session state unconditionally: whatever the
peer's Close returns (the return value is propagated as Disconnect's
own result), afterwards IsConnected is false and GetRoomCode is
empty. -/
theorem disconnect_clears_state (J : JsonLib) (now : Int) (closeRes : Option String)
    (c : ClientState) :
    IsConnected (Disconnect J now closeRes c).1 = false
  ∧ GetRoomCode (Disconnect J now closeRes c).1 = []
  ∧ (Disconnect J now closeRes c).2.1 = closeRes := by
  refine ⟨?_, ?_, ?_⟩ <;> simp [Disconnect, IsConnected, GetRoomCode]

/-- C8: JoinRoom frame: on a not-connected session, JoinRoom with the
empty room code returns the empty-room-code error, makes no peer call,
and returns the session state entirely unchanged. -/
theorem join_room_empty_frame (gz : GzipLib)
    (peerCreateAnswer : List Nat → Except String (List Nat)) (c : ClientState)
    (h : c.isConnected = false) :
    JoinRoom gz peerCreateAnswer c [] = (c, .error .emptyRoomCode, []) := by
  simp [JoinRoom, h]

theorem join_room_empty_frame_witness :
    JoinRoom gzStub (fun _ => .ok []) cSample [] = (cSample, .error .emptyRoomCode, []) :=
  join_room_empty_frame gzStub (fun _ => .ok []) cSample rfl

end P2PChat
